import Mathlib

/-!
Verification of the EPG-IRIB generator (`generate_epg.py`).

This file shallowly embeds the pure data-transformation core of the
program: the Sepehr API item conversion (`sepehr_programmes_to_xmltv`
with its helper `ms_to_xmltv`), the Radio Quran HTML parser
(`parse_radio_quran_html`), the secondary JSON feed normalizer (the
per-box loop of `fetch_radio_quran_json`), the radio conversion
(`radio_quran_to_xmltv`), and the tree-building order of `main`.

Modelling conventions:
- Python ints are `Int`/`Nat`; Python `str` is `String`.
- Missing or `None`-valued optional JSON fields are `Option.none` where the
  code treats both identically (`dict.get` defaults plus truthiness tests).
  Fields the code calls string methods on are typed `String`: feeding a
  JSON null/number there crashes the Python before the logic modelled here.
- Code that can raise an uncaught exception is embedded in `Except Unit`
  (or returns `none`): `datetime.replace` with an out-of-range hour/minute,
  `datetime.fromtimestamp` outside the year range 1..9999, and datetime
  arithmetic overflowing that range.
- `datetime.fromtimestamp(ms / 1000, tz)` displays the second
  `⌊ms / 1000⌋`: the float quotient is exact whenever 1000 divides `ms`,
  and otherwise its microsecond rounding never moves the integer second for
  any `ms` small enough to be representable as a datetime.
- The IANA time zone `Asia/Tehran` is embedded as its full list of UTC
  offset transitions (1935 LMT cutover, the +04 era of 1977-1979, and every
  daylight-saving interval up to the final one ending on 2022-09-21 19:30
  UTC; from then on the offset is constantly +03:30).
-/

/-! ## Python string and integer primitives -/

/-- Characters Python's `str.strip()` and the regex class `\s` treat as
whitespace (ASCII whitespace plus the Unicode space characters; the
exotic non-ASCII ones are included for fidelity to `str.isspace`). -/
def pyIsSpace (c : Char) : Bool :=
  c = ' ' ∨ c = '\t' ∨ c = '\n' ∨ c = '\x0b' ∨ c = '\x0c' ∨ c = '\r' ∨
  c = '\x1c' ∨ c = '\x1d' ∨ c = '\x1e' ∨ c = '\x1f' ∨ c = '\x85' ∨
  c = '\xa0' ∨ c = ' ' ∨ (' ' ≤ c ∧ c ≤ ' ') ∨
  c = ' ' ∨ c = ' ' ∨ c = ' ' ∨ c = ' ' ∨ c = '　'

/-- Python `str.strip()`: remove leading and trailing whitespace. -/
def pyStrip (s : String) : String :=
  String.mk (((s.data.dropWhile pyIsSpace).reverse.dropWhile pyIsSpace).reverse)

/-- Python `s.split(sep)` for a one-character separator, over the
character list (every core string function used in this file is
reimplemented structurally so that terms evaluate inside the kernel). -/
def splitOnChar (sep : Char) : List Char → List (List Char)
  | [] => [[]]
  | c :: t =>
    match splitOnChar sep t with
    | [] => [[c]]
    | h :: r => if c = sep then [] :: h :: r else (c :: h) :: r

/-- Python `s.endswith(t)` (used only to state claims). -/
def strEndsWith (s t : String) : Bool := t.data.isSuffixOf s.data

/-- Value of a decimal digit character as Python sees it: ASCII digits plus
the Arabic-Indic and Extended Arabic-Indic digits that occur in this
source's Persian pages (Python's `\d` and `int()` accept these). -/
def pyDigitVal (c : Char) : Option Nat :=
  if '0' ≤ c ∧ c ≤ '9' then some (c.toNat - '0'.toNat)
  else if '٠' ≤ c ∧ c ≤ '٩' then some (c.toNat - 0x660)
  else if '۰' ≤ c ∧ c ≤ '۹' then some (c.toNat - 0x6f0)
  else none

/-- Python regex `\d` on the digit repertoire modelled here. -/
def pyIsDigit (c : Char) : Bool := (pyDigitVal c).isSome

/-- Decimal digits of `n`, most significant first (`fuel` bounds the
recursion; any `fuel > log10 n` gives the exact digits). -/
def natDigitsAux : Nat → Nat → List Char
  | 0, _ => []
  | fuel + 1, n =>
    if n < 10 then [Nat.digitChar n]
    else natDigitsAux fuel (n / 10) ++ [Nat.digitChar (n % 10)]

/-- Decimal string of a natural number, as Python `str` renders it. -/
def natStr (n : Nat) : String := String.mk (natDigitsAux (n + 1) n)

/-- Left-pad the decimal form of `n` with zeros to width `w`
(Python `%0wd` for a nonnegative argument). -/
def padZeros (w : Nat) (n : Nat) : String :=
  String.mk (List.replicate (w - (natStr n).length) '0') ++ natStr n

/-- Python `f"{i:02d}"`: decimal form padded to a minimum total width of
two characters, the sign included in the width. -/
def py02d (i : Int) : String :=
  if 0 ≤ i then padZeros 2 i.toNat else String.mk ['-'] ++ natStr i.natAbs

/-- Digit run (with Python's single-underscore separators) to its value;
`none` on any malformed run, mirroring `int()` rejection. -/
def pyDigitsCore (acc : Nat) : List Char → Option Nat
  | [] => some acc
  | c :: rest =>
    match pyDigitVal c with
    | some d => pyDigitsCore (acc * 10 + d) rest
    | none =>
      if c = '_' then
        match rest with
        | [] => none
        | r :: rest2 =>
          match pyDigitVal r with
          | some d => pyDigitsCore (acc * 10 + d) rest2
          | none => none
      else none

/-- Python `int(s)`: strip whitespace, optional sign, then decimal digits
(underscore separators allowed); `none` models the `ValueError`. -/
def pyIntOfString (s : String) : Option Int :=
  let core := (s.data.dropWhile pyIsSpace).reverse.dropWhile pyIsSpace |>.reverse
  let signed : Bool × List Char :=
    match core with
    | '-' :: rest => (true, rest)
    | '+' :: rest => (false, rest)
    | rest => (false, rest)
  match signed.2 with
  | [] => none
  | c :: rest =>
    match pyDigitVal c with
    | none => none
    | some d =>
      match pyDigitsCore d rest with
      | none => none
      | some v => some (if signed.1 then -(v : Int) else (v : Int))

/-- Python `int(s)` on a string already known to be a nonempty digit run
(as produced by a `\d+` regex capture). -/
def pyIntDigits (s : String) : Int :=
  (s.data.foldl (fun acc c => acc * 10 + ((pyDigitVal c).getD 0)) 0 : Nat)

/-! ## Civil calendar arithmetic (the Gregorian conversions inside
`datetime`), Howard Hinnant's algorithms over `Int` -/

/-- Year, month, day from a count of days since 1970-01-01. -/
def civilFromDays (z : Int) : Int × Nat × Nat :=
  let z' := z + 719468
  let era : Int := z' / 146097
  let doe : Nat := (z' - era * 146097).toNat
  let yoe : Nat := (doe - doe / 1460 + doe / 36524 - doe / 146096) / 365
  let doy : Nat := doe - (365 * yoe + yoe / 4 - yoe / 100)
  let mp : Nat := (5 * doy + 2) / 153
  let d : Nat := doy - (153 * mp + 2) / 5 + 1
  let m : Nat := if mp < 10 then mp + 3 else mp - 9
  (era * 400 + (yoe : Int) + (if m ≤ 2 then 1 else 0), m, d)

/-- Days since 1970-01-01 of a civil year, month, day. -/
def daysFromCivil (y : Int) (m d : Nat) : Int :=
  let y' := y - (if m ≤ 2 then 1 else 0)
  let era : Int := y' / 400
  let yoe : Nat := (y' - era * 400).toNat
  let doy : Nat := (153 * (if m > 2 then m - 3 else m + 9) + 2) / 5 + d - 1
  let doe : Nat := yoe * 365 + yoe / 4 - yoe / 100 + doy
  era * 146097 + (doe : Int) - 719468

/-! ## The `Asia/Tehran` zone (`IRAN_TZ = ZoneInfo("Asia/Tehran")`) -/

/-- UTC offset transitions of `Asia/Tehran` from the IANA database,
latest first: `(epoch second of the transition, offset in seconds from
then on)`. The head is the end of Iran's final daylight-saving interval
(2022-09-21 19:30 UTC); before the earliest entry the local mean time
offset +03:25:44 applies. -/
def tehranTransitions : List (Int × Int) :=
  [(1663788600, 12600), (1647894600, 16200), (1632252600, 12600),
   (1616358600, 16200), (1600630200, 12600), (1584736200, 16200),
   (1569094200, 12600), (1553200200, 16200), (1537558200, 12600),
   (1521664200, 16200), (1506022200, 12600), (1490128200, 16200),
   (1474399800, 12600), (1458505800, 16200), (1442863800, 12600),
   (1426969800, 16200), (1411327800, 12600), (1395433800, 16200),
   (1379791800, 12600), (1363897800, 16200), (1348169400, 12600),
   (1332275400, 16200), (1316633400, 12600), (1300739400, 16200),
   (1285097400, 12600), (1269203400, 16200), (1253561400, 12600),
   (1237667400, 16200), (1221939000, 12600), (1206045000, 16200),
   (1127331000, 12600), (1111437000, 16200), (1095708600, 12600),
   (1079814600, 16200), (1064172600, 12600), (1048278600, 16200),
   (1032636600, 12600), (1016742600, 16200), (1001100600, 12600),
   (985206600, 16200), (969478200, 12600), (953584200, 16200),
   (937942200, 12600), (922048200, 16200), (906406200, 12600),
   (890512200, 16200), (874870200, 12600), (858976200, 16200),
   (843247800, 12600), (827353800, 16200), (811711800, 12600),
   (795817800, 16200), (780175800, 12600), (764281800, 16200),
   (748639800, 12600), (732745800, 16200), (717103800, 12600),
   (701209800, 16200), (685481400, 12600), (673216200, 16200),
   (338499000, 12600), (322432200, 16200), (306531000, 12600),
   (296598600, 16200), (283982400, 12600), (271108800, 14400),
   (259617600, 18000), (246223800, 14400), (227820600, 16200),
   (-1090466744, 12600)]

/-- First offset whose transition time is at or before `t`; the default
12344 (+03:25:44 LMT) applies before every listed transition. -/
def offsetLookup : List (Int × Int) → Int → Int
  | [], _ => 12344
  | (t0, o) :: rest, t => if t0 ≤ t then o else offsetLookup rest t

/-- UTC offset of `Asia/Tehran`, in seconds, at epoch second `t`. -/
def tehranOffsetSec (t : Int) : Int := offsetLookup tehranTransitions t

/-- Rendering of a UTC offset by `strftime("%z")`: sign, hours, minutes,
and seconds only when nonzero. -/
def fmtOffsetSec (off : Int) : String :=
  let a := off.natAbs
  (if off < 0 then String.mk ['-'] else String.mk ['+']) ++
    padZeros 2 (a / 3600) ++ padZeros 2 (a % 3600 / 60) ++
    (if a % 60 = 0 then String.mk [] else padZeros 2 (a % 60))

/-- Shallow embedding of `ms_to_xmltv`:
`datetime.fromtimestamp(ms / 1000, tz=IRAN_TZ).strftime("%Y%m%d%H%M%S %z")`.
Returns `none` where `fromtimestamp` raises (the UTC or local civil year
falling outside `datetime`'s range 1..9999). -/
def msToXmltv (ms : Int) : Option String :=
  let s := ms / 1000
  let uy := (civilFromDays (s / 86400)).1
  if uy < 1 ∨ 9999 < uy then none
  else
    let ls := s + tehranOffsetSec s
    let c := civilFromDays (ls / 86400)
    let rem : Nat := (ls % 86400).toNat
    if c.1 < 1 ∨ 9999 < c.1 then none
    else
      some (padZeros 4 c.1.toNat ++ padZeros 2 c.2.1 ++ padZeros 2 c.2.2 ++
        padZeros 2 (rem / 3600) ++ padZeros 2 (rem % 3600 / 60) ++
        padZeros 2 (rem % 60) ++ String.mk [' '] ++ fmtOffsetSec (tehranOffsetSec s))

/-! ## XMLTV programme elements -/

/-- One emitted `<programme>` element: its attributes and children, in the
shape both converters produce (`title` and `desc` always carry
`lang="fa"`, a fixed attribute not modelled separately). -/
structure Programme where
  start : String
  stop : Option String
  channel : String
  title : String
  desc : Option String
  icon : Option String
  deriving Repr, DecidableEq

/-! ## Sepehr API path (`sepehr_programmes_to_xmltv`) -/

/-- One Sepehr API item, restricted to the fields the conversion reads.
`none` stands for a missing key or a JSON `null` wherever the code treats
the two identically (`start` via truthiness, `duration` via truthiness,
`descFull`/`descSummary`/`imageUrl` via `or`/truthiness). A `null`
`title` is outside the model: `prog.get("title", "").strip()` would
crash the Python on it, so `title` here is a missing-or-string field. -/
structure SepehrItem where
  start : Option Int
  title : Option String
  duration : Option Int
  descFull : Option String
  descSummary : Option String
  imageUrl : Option String
  deriving Repr, DecidableEq

/-- Python `a or b or ""` over two optional strings: the first truthy
(present and nonempty) value, else the empty string. -/
def firstTruthy (a b : Option String) : String :=
  match a with
  | some s => if s ≠ (String.mk []) then s else match b with
    | some t => if t ≠ (String.mk []) then t else (String.mk [])
    | none => (String.mk [])
  | none => match b with
    | some t => if t ≠ (String.mk []) then t else (String.mk [])
    | none => (String.mk [])

/-- Loop body of `sepehr_programmes_to_xmltv` for one item: `.ok none`
models `continue` (item dropped), `.ok (some p)` the appended programme
element, `.error ()` an uncaught exception from `ms_to_xmltv`. -/
def sepehrItemStep (tvgId : String) (item : SepehrItem) : Except Unit (Option Programme) :=
  match item.start with
  | none => .ok none
  | some startMs =>
  if startMs = 0 then .ok none
  else
    let title := pyStrip (item.title.getD (String.mk []))
    if title = (String.mk []) then .ok none
    else
      match msToXmltv startMs with
      | none => .error ()
      | some startStr =>
        let stopRes : Except Unit (Option String) :=
          match item.duration with
          | some d =>
            if 0 < d then
              match msToXmltv (startMs + d * 60 * 1000) with
              | none => .error ()
              | some stopStr => .ok (some stopStr)
            else .ok none
          | none => .ok none
        match stopRes with
        | .error _ => .error ()
        | .ok stop? =>
          let desc := pyStrip (firstTruthy item.descFull item.descSummary)
          .ok (some
            { start := startStr
              stop := stop?
              channel := tvgId
              title := title
              desc := if desc = (String.mk []) then none else some desc
              icon := match item.imageUrl with
                | some img => if img ≠ (String.mk []) then some img else none
                | none => none })

/-- Full loop of `sepehr_programmes_to_xmltv`: the programme elements
appended to the tree, paired with `true` when an exception escaped
(elements appended before the raise remain in the tree; the count the
Python would return is the list length when the flag is `false`). -/
def sepehrProgrammesToXmltv (tvgId : String) : List SepehrItem → List Programme × Bool
  | [] => ([], false)
  | item :: rest =>
    match sepehrItemStep tvgId item with
    | .error _ => ([], true)
    | .ok none => sepehrProgrammesToXmltv tvgId rest
    | .ok (some p) =>
      let r := sepehrProgrammesToXmltv tvgId rest
      (p :: r.1, r.2)

/-! ## Canonical radio programme records (shared output schema of
`parse_radio_quran_html` and the JSON feed normalizer) -/

/-- One programme dict with keys `time, title, description, duration,
image`. -/
structure RQRec where
  time : String
  title : String
  description : String
  duration : Int
  image : String
  deriving Repr, DecidableEq

/-! ## Secondary JSON feed normalizer (the per-box loop of
`fetch_radio_quran_json`, lines 281-308) -/

/-- One box of the first container of the JSON feed, with the fields the
loop reads, typed as the strings the code calls `str` methods on. -/
structure RQBox where
  title : String
  time : String
  image : String
  deriving Repr, DecidableEq

/-- Fixed origin prefixed to relative image paths of the secondary feed. -/
def rqOrigin : String := String.mk ['h','t','t','p','s',':','/','/','r','a','d','i','o','q','u','r','a','n','.','i','r']

/-- Loop body of the JSON feed normalizer for one box: `none` models
`continue` (empty trimmed title; no `:` in `time`; hour or minute failing
`int()`, the caught `ValueError`/`IndexError`). -/
def normalizeBox (box : RQBox) : Option RQRec :=
  let title := pyStrip box.title
  if title = (String.mk []) then none
  else if ¬ box.time.data.any (fun c => c = ':') then none
  else
    match splitOnChar ':' (pyStrip box.time).data with
    | p0 :: p1 :: _ =>
      match pyIntOfString (String.mk p0), pyIntOfString (String.mk p1) with
      | some h, some m =>
        let image := if box.image ≠ (String.mk []) ∧ ¬ (String.mk ['h','t','t','p']).data.isPrefixOf box.image.data
          then rqOrigin ++ box.image else box.image
        some
          { time := py02d h ++ String.mk [':'] ++ py02d m
            title := title
            description := String.mk []
            duration := 0
            image := image }
      | _, _ => none
    | _ => none

/-- The whole normalizer over the first container's boxes. -/
def radioQuranJsonNormalize (boxes : List RQBox) : List RQRec :=
  boxes.filterMap normalizeBox

/-! ## Radio conversion (`radio_quran_to_xmltv`) -/

/-- The aware `date` argument (midnight anchor, `now.replace(hour=0, ...)`
in `IRAN_TZ`). In the current fixed-offset era of `Asia/Tehran` (every
run since 2022) all wall times of one day carry the same UTC offset, so
the anchor records it once: aware-datetime comparison between two entries
of the day is wall-clock comparison, and `strftime("%z")` prints this
offset (210 minutes, +03:30, in every actual run). -/
structure RQAnchor where
  year : Nat
  month : Nat
  day : Nat
  offMin : Int
  deriving Repr, DecidableEq

/-- One tuple of the intermediate `entries` list:
`(start_dt, title, desc, duration_min, image)` with the start kept as the
hour and minute `date.replace` validated. -/
structure RQEntry where
  h : Nat
  m : Nat
  title : String
  description : String
  duration : Int
  image : String
  deriving Repr, DecidableEq

/-- Python `h, m = time_str.split(":")` followed by `int(h), int(m)`:
`none` models the caught `ValueError` (not exactly two parts, or a part
`int()` rejects). -/
def parseTimeHM (s : String) : Option (Int × Int) :=
  match splitOnChar ':' s.data with
  | [a, b] =>
    match pyIntOfString (String.mk a), pyIntOfString (String.mk b) with
    | some h, some m => some (h, m)
    | _, _ => none
  | _ => none

/-- First loop of `radio_quran_to_xmltv`: filter records and resolve start
times. `date.replace(hour=hour, minute=minute, second=0, microsecond=0)`
raises `ValueError` — uncaught, it is outside the `try` — whenever the
parsed hour is not in 0..23 or the minute not in 0..59; that raise is
`.error ()`. -/
def buildEntries : List RQRec → Except Unit (List RQEntry)
  | [] => .ok []
  | r :: rest =>
    let title := pyStrip r.title
    if title = (String.mk []) then buildEntries rest
    else
      match parseTimeHM r.time with
      | none => buildEntries rest
      | some (h, m) =>
        if 0 ≤ h ∧ h ≤ 23 ∧ 0 ≤ m ∧ m ≤ 59 then
          match buildEntries rest with
          | .error e => .error e
          | .ok es =>
            .ok ({ h := h.toNat, m := m.toNat, title := title,
                   description := r.description, duration := r.duration,
                   image := r.image } :: es)
        else .error ()

/-- `start_dt.strftime("%Y%m%d%H%M%S %z")` for hour `h`, minute `m` on the
anchor day (seconds zeroed by the `replace`). -/
def fmtStart (a : RQAnchor) (h m : Nat) : String :=
  padZeros 4 a.year ++ padZeros 2 a.month ++ padZeros 2 a.day ++
    padZeros 2 h ++ padZeros 2 m ++ padZeros 2 0 ++ String.mk [' '] ++
    fmtOffsetSec (a.offMin * 60)

/-- `(start_dt + timedelta(minutes=duration)).strftime(...)`: calendar-aware
minute addition; `.error ()` models the `OverflowError` when the result
leaves `datetime`'s year range. -/
def addMinutesFmt (a : RQAnchor) (h m : Nat) (dur : Int) : Except Unit String :=
  let total : Int := daysFromCivil (a.year : Int) a.month a.day * 1440 + h * 60 + m + dur
  let c := civilFromDays (total / 1440)
  let rem : Nat := (total % 1440).toNat
  if c.1 < 1 ∨ 9999 < c.1 then .error ()
  else
    .ok (padZeros 4 c.1.toNat ++ padZeros 2 c.2.1 ++ padZeros 2 c.2.2 ++
      padZeros 2 (rem / 60) ++ padZeros 2 (rem % 60) ++ padZeros 2 0 ++
      String.mk [' '] ++ fmtOffsetSec (a.offMin * 60))

/-- Aware comparison `next_start > start_dt` between two entries of the
anchor day: both share the date and offset, so it is wall-clock order. -/
def entryLater (cur nxt : RQEntry) : Bool :=
  cur.h < nxt.h ∨ (cur.h = nxt.h ∧ cur.m < nxt.m)

/-- Stop attribute inferred from the following entry: the next start,
only when it is strictly later than the current one. -/
def inferredStop (a : RQAnchor) (e : RQEntry) : Option RQEntry → Option String
  | some nx => if entryLater e nx then some (fmtStart a nx.h nx.m) else none
  | none => none

/-- Body of the emission loop for the entry `e` whose successor in the
filtered list is `next?`: start attribute, stop policy (duration first,
else the strictly-later next start), title/desc/icon children. -/
def emitOne (tvgId : String) (a : RQAnchor) (e : RQEntry) (next? : Option RQEntry) : Except Unit Programme :=
  let stopE : Except Unit (Option String) :=
    if 0 < e.duration then
      match addMinutesFmt a e.h e.m e.duration with
      | .error u => .error u
      | .ok s => .ok (some s)
    else
      .ok (match next? with
        | some nx => if entryLater e nx then some (fmtStart a nx.h nx.m) else none
        | none => none)
  match stopE with
  | .error u => .error u
  | .ok stop? =>
    .ok { start := fmtStart a e.h e.m
          stop := stop?
          channel := tvgId
          title := e.title
          desc := if e.description ≠ (String.mk []) then some e.description else none
          icon := if e.image ≠ (String.mk []) then some e.image else none }

/-- Second loop of `radio_quran_to_xmltv` over the filtered entries. -/
def emitLoop (tvgId : String) (a : RQAnchor) : List RQEntry → Except Unit (List Programme)
  | [] => .ok []
  | e :: rest =>
    match emitOne tvgId a e rest.head? with
    | .error u => .error u
    | .ok p =>
      match emitLoop tvgId a rest with
      | .error u => .error u
      | .ok ps => .ok (p :: ps)

/-- Whole `radio_quran_to_xmltv(tv, programmes, tvg_id, date)`: the list of
programme elements appended (its length is the returned count);
`.error ()` is an uncaught exception (the run dies before writing any
output). -/
def radioQuranToXmltv (tvgId : String) (a : RQAnchor) (progs : List RQRec) : Except Unit (List Programme) :=
  match buildEntries progs with
  | .error u => .error u
  | .ok es => emitLoop tvgId a es

/-! ## HTML parser (`parse_radio_quran_html`)

Each of the five `re.findall` calls is embedded as a dedicated scanner:
`reScanAux` mirrors the engine's outer loop (try a match at the current
position; on success continue after the match, on failure advance one
character), and each `attempt` function is the deterministic residue of
its pattern's backtracking at one start position. -/

/-- Strip a literal off the front of the character stream. -/
def dropLit (lit : List Char) (s : List Char) : Option (List Char) :=
  if lit.isPrefixOf s then some (s.drop lit.length) else none

/-- Generic `re.findall` loop: leftmost matches, non-overlapping, restart
one character further on failure. Every pattern here consumes at least
one character, so `fuel = length + 1` is exact. -/
def reScanAux (attempt : List Char → Option (String × List Char)) : Nat → List Char → List String
  | 0, _ => []
  | fuel + 1, s =>
    match attempt s with
    | some (cap, rest) => cap :: reScanAux attempt fuel rest
    | none =>
      match s with
      | [] => []
      | _ :: t => reScanAux attempt fuel t

/-- Split at the first occurrence of `needle`: the characters before it
and the stream after it (the lazy `(.*?)` capture up to a literal). -/
def splitAtFirst (needle : List Char) : Nat → List Char → Option (List Char × List Char)
  | 0, _ => none
  | fuel + 1, s =>
    if needle.isPrefixOf s then some ([], s.drop needle.length)
    else
      match s with
      | [] => none
      | c :: t =>
        match splitAtFirst needle fuel t with
        | some (a, b) => some (c :: a, b)
        | none => none

/-- One attempt of `fontsize-3">\s*(\d{1,2}:\d{2})\s*</div>`: the literal,
greedy whitespace, one or two digits (two preferred) before `:`, two
digits, whitespace, the closing literal. -/
def attemptTime (s : List Char) : Option (String × List Char) :=
  match dropLit ((String.mk ['f','o','n','t','s','i','z','e','-','3','"','>']).data) s with
  | none => none
  | some s1 =>
    let s2 := s1.dropWhile pyIsSpace
    let tail : List Char → Option (String × List Char) := fun r =>
      let s3 := r.dropWhile pyIsSpace
      dropLit ((String.mk ['<','/','d','i','v','>']).data) s3
        |>.map (fun s4 => ((String.mk []), s4))
    let two : Option (String × List Char) :=
      match s2 with
      | a :: b :: ':' :: c :: d :: r =>
        if pyIsDigit a ∧ pyIsDigit b ∧ pyIsDigit c ∧ pyIsDigit d then
          (tail r).map (fun p => (String.mk [a, b, ':', c, d], p.2))
        else none
      | _ => none
    let one : Option (String × List Char) :=
      match s2 with
      | a :: ':' :: c :: d :: r =>
        if pyIsDigit a ∧ pyIsDigit c ∧ pyIsDigit d then
          (tail r).map (fun p => (String.mk [a, ':', c, d], p.2))
        else none
      | _ => none
    two <|> one

/-- One attempt of a `LIT(.*?)CLOSE` pattern with `re.DOTALL` (used for
titles with `itemprop="name ">…</h4>` and descriptions with
`itemprop="description">…</p>`). -/
def attemptLazyBetween (lit close : List Char) (s : List Char) : Option (String × List Char) :=
  match dropLit lit s with
  | none => none
  | some s1 =>
    match splitAtFirst close (s1.length + 1) s1 with
    | some (cap, rest) => some (String.mk cap, rest)
    | none => none

/-- One attempt of `مدت:(\d+)\s*دقیقه`: the maximal digit run after the
literal, then whitespace, then the closing word. -/
def attemptDuration (s : List Char) : Option (String × List Char) :=
  match dropLit ((String.mk ['م','د','ت',':']).data) s with
  | none => none
  | some s1 =>
    let digits := s1.takeWhile pyIsDigit
    if digits = [] then none
    else
      let s2 := (s1.drop digits.length).dropWhile pyIsSpace
      match dropLit ((String.mk ['د','ق','ی','ق','ه']).data) s2 with
      | none => none
      | some s3 => some (String.mk digits, s3)

/-- One attempt of `img class="lazy" alt="[^"]*" src="([^"]+)"`. -/
def attemptImage (s : List Char) : Option (String × List Char) :=
  match dropLit ((String.mk ['i','m','g',' ','c','l','a','s','s','=','"','l','a','z','y','"',' ','a','l','t','=','"']).data) s with
  | none => none
  | some s1 =>
    let alt := s1.takeWhile (fun c => c ≠ '"')
    match dropLit ((String.mk ['"',' ','s','r','c','=','"']).data) (s1.drop alt.length) with
    | none => none
    | some s2 =>
      let url := s2.takeWhile (fun c => c ≠ '"')
      if url = [] then none
      else
        match s2.drop url.length with
        | '"' :: r => some (String.mk url, r)
        | _ => none

/-- `re.findall(r'fontsize-3">\s*(\d{1,2}:\d{2})\s*</div>', html)`. -/
def findTimes (html : String) : List String :=
  reScanAux attemptTime (html.data.length + 1) html.data

/-- `re.findall(r'itemprop="name ">(.*?)</h4>', html, re.DOTALL)`. -/
def findTitles (html : String) : List String :=
  reScanAux
    (attemptLazyBetween ((String.mk ['i','t','e','m','p','r','o','p','=','"','n','a','m','e',' ','"','>']).data)
      ((String.mk ['<','/','h','4','>']).data))
    (html.data.length + 1) html.data

/-- `re.findall(r'itemprop="description">(.*?)</p>', html, re.DOTALL)`. -/
def findDescs (html : String) : List String :=
  reScanAux
    (attemptLazyBetween ((String.mk ['i','t','e','m','p','r','o','p','=','"','d','e','s','c','r','i','p','t','i','o','n','"','>']).data)
      ((String.mk ['<','/','p','>']).data))
    (html.data.length + 1) html.data

/-- `re.findall(r"مدت:(\d+)\s*دقیقه", html)`. -/
def findDurations (html : String) : List String :=
  reScanAux attemptDuration (html.data.length + 1) html.data

/-- `re.findall(r'img class="lazy" alt="[^"]*" src="([^"]+)"', html)`. -/
def findImages (html : String) : List String :=
  reScanAux attemptImage (html.data.length + 1) html.data

/-- One attempt of `<br\s*/?>` (the substitution pattern). Returns the
stream after the match. -/
def attemptBr (s : List Char) : Option (List Char) :=
  match dropLit ((String.mk ['<','b','r']).data) s with
  | none => none
  | some s1 =>
    let s2 := s1.dropWhile pyIsSpace
    let s3 := match s2 with
      | '/' :: r => r
      | r => r
    match s3 with
    | '>' :: r => some r
    | _ => none

/-- `re.sub(r"<br\s*/?>", "\n", ...)` over the stream. -/
def subBrAux : Nat → List Char → List Char
  | 0, s => s
  | fuel + 1, s =>
    match attemptBr s with
    | some rest => '\n' :: subBrAux fuel rest
    | none =>
      match s with
      | [] => []
      | c :: t => c :: subBrAux fuel t

/-- One attempt of `<[^>]+>`: `<`, a nonempty run without `>`, then `>`. -/
def attemptTag (s : List Char) : Option (List Char) :=
  match s with
  | '<' :: r =>
    let run := r.takeWhile (fun c => c ≠ '>')
    if run = [] then none
    else
      match r.drop run.length with
      | '>' :: rest => some rest
      | _ => none
  | _ => none

/-- `re.sub(r"<[^>]+>", "", ...)` over the stream. -/
def subTagAux : Nat → List Char → List Char
  | 0, s => s
  | fuel + 1, s =>
    match attemptTag s with
    | some rest => subTagAux fuel rest
    | none =>
      match s with
      | [] => []
      | c :: t => c :: subTagAux fuel t

/-- Description cleanup in the build loop: strip, `<br>` variants to
newlines, remaining tags removed, strip again. -/
def cleanDesc (s : String) : String :=
  let d1 := pyStrip s
  let d2 := String.mk (subBrAux (d1.data.length + 1) d1.data)
  let d3 := String.mk (subTagAux (d2.data.length + 1) d2.data)
  pyStrip d3

/-- Shallow embedding of `parse_radio_quran_html`: five independent
pattern scans, zipped positionally up to the shortest length (`n = 0`
yields the empty list, the Python merely logging before returning it). -/
def parseRadioQuranHtml (html : String) : List RQRec :=
  let times := findTimes html
  let titles := findTitles html
  let descs := findDescs html
  let durations := findDurations html
  let images := findImages html
  let n := min (min (min (min times.length titles.length) descs.length) durations.length) images.length
  (List.range n).map (fun i =>
    { time := pyStrip (times.getD i (String.mk []))
      title := pyStrip (titles.getD i (String.mk []))
      description := cleanDesc (descs.getD i (String.mk []))
      duration := pyIntDigits (durations.getD i (String.mk []))
      image := images.getD i (String.mk []) })

/-! ## Tree-building order of `main` -/

/-- One child of the XMLTV root: a `<channel>` definition or a
`<programme>` entry. -/
inductive TVNode where
  | channel (id displayName logo : String) : TVNode
  | programme (p : Programme) : TVNode
  deriving Repr, DecidableEq

/-- Discriminator for channel children. -/
def TVNode.isChannel : TVNode → Bool
  | .channel _ _ _ => true
  | .programme _ => false

/-- The Sepehr channel registered from `SEPEHR_CHANNELS` (id 46). -/
def sepehrChannelNode : TVNode :=
  .channel (String.mk ['Q','u','r','a','n','T','V','.','i','r','@','S','D'])
    (String.mk ['I','R','I','B',' ','Q','u','r','a','n'])
    (String.mk ['s','e','p','e','h','r','-','l','o','g','o'])

/-- The Radio Quran channel registered from `RADIO_QURAN`. -/
def radioChannelNode : TVNode :=
  .channel (String.mk ['R','a','d','i','o',' ','Q','u','r','a','n'])
    (String.mk ['R','a','d','i','o',' ','Q','u','r','a','n'])
    (String.mk ['r','q','-','l','o','g','o'])

/-- Sepehr contribution of a run: the converted programme elements and the
did-it-raise flag (empty and clean when the token check failed). -/
def sepehrSection (sepehrOk : Bool) (sepehrItems : List SepehrItem) : List Programme × Bool :=
  if sepehrOk then
    sepehrProgrammesToXmltv (String.mk ['Q','u','r','a','n','T','V','.','i','r','@','S','D']) sepehrItems
  else ([], false)

/-- Root children built by one run of `main`, with the fetch results as
parameters: `sepehrOk` is the token health-check outcome, `sepehrItems`
the fetched API items, `rq?` the radio records obtained from HTML or the
JSON fallback (`none`: both sources failed). Appending order follows the
code: Sepehr channel elements, then Sepehr programme elements (the
conversion's exception is caught per channel, keeping the elements
appended before the raise), then the Radio Quran channel element —
registered before any radio conversion — then radio programme elements.
`none` models a run that writes no output file: a radio conversion
exception (uncaught) or zero total programmes (`sys.exit(1)`). -/
def mainChildren (sepehrOk : Bool) (sepehrItems : List SepehrItem) (rq? : Option (List RQRec)) (a : RQAnchor) : Option (List TVNode) :=
  let sepehr := sepehrSection sepehrOk sepehrItems
  let sepehrNodes : List TVNode :=
    (if sepehrOk then [sepehrChannelNode] else []) ++ sepehr.1.map .programme
  let sepehrCount := if sepehr.2 then 0 else sepehr.1.length
  match rq? with
  | none =>
    if sepehrCount = 0 then none
    else some (sepehrNodes ++ [radioChannelNode])
  | some [] =>
    if sepehrCount = 0 then none
    else some (sepehrNodes ++ [radioChannelNode])
  | some rq =>
    match radioQuranToXmltv (String.mk ['R','a','d','i','o',' ','Q','u','r','a','n']) a rq with
    | .error _ => none
    | .ok rps =>
      if sepehrCount + rps.length = 0 then none
      else some (sepehrNodes ++ [radioChannelNode] ++ rps.map .programme)

/-- All channel children precede all programme children (the shape the
specification asserts of the output document). -/
def channelsBeforeProgrammes (l : List TVNode) : Bool :=
  (l.dropWhile TVNode.isChannel).all (fun n => ! n.isChannel)

/-! ## Predicates used to state the claims -/

/-- ASCII decimal digit (the characters a `YYYYMMDDHHMMSS` stamp or a
zero-padded `HH:MM` may contain). -/
def asciiDigit (c : Char) : Bool := '0' ≤ c ∧ c ≤ '9'

/-- The two-digit zero-padded clock form `HH:MM`. -/
def isHHMM (s : String) : Bool :=
  match s.data with
  | [a, b, ':', c, d] => asciiDigit a ∧ asciiDigit b ∧ asciiDigit c ∧ asciiDigit d
  | _ => false

/-! ## Concrete example values used by witnesses -/

/-- Midnight anchor of 2026-02-19 in the fixed +03:30 era (the shape
`main` passes for a current-day run). -/
def exAnchor : RQAnchor := { year := 2026, month := 2, day := 19, offMin := 210 }

def exRecA : RQRec :=
  { time := ("10:00"), title := ("A"), description := (""), duration := 0, image := ("") }

def exRecB : RQRec :=
  { time := ("10:30"), title := ("B"), description := (""), duration := 0, image := ("") }

def exEntryA : RQEntry :=
  { h := 10, m := 0, title := ("A"), description := (""), duration := 0, image := ("") }

def exEntryB : RQEntry :=
  { h := 10, m := 30, title := ("B"), description := (""), duration := 0, image := ("") }

def exProgA : Programme :=
  { start := ("20260219100000 +0330"), stop := some ("20260219103000 +0330"),
    channel := ("RQ"), title := ("A"), desc := none, icon := none }

def exProgB : Programme :=
  { start := ("20260219103000 +0330"), stop := none,
    channel := ("RQ"), title := ("B"), desc := none, icon := none }

def exItem30 : SepehrItem :=
  { start := some 1771446600000, title := some ("A"), duration := some 30,
    descFull := none, descSummary := none, imageUrl := none }

def exProg30 : Programme :=
  { start := ("20260219000000 +0330"), stop := some ("20260219003000 +0330"),
    channel := ("QuranTV.ir@SD"), title := ("A"), desc := none, icon := none }

def exItemDesc : SepehrItem :=
  { start := some 1771446600000, title := some ("T"), duration := none,
    descFull := some ("full text"), descSummary := some ("sum"), imageUrl := none }

def exProgDesc : Programme :=
  { start := ("20260219000000 +0330"), stop := none, channel := ("ch"),
    title := ("T"), desc := some ("full text"), icon := none }

def exItemNeg : SepehrItem :=
  { start := some 1771446600000, title := some ("X"), duration := some (-5),
    descFull := none, descSummary := none, imageUrl := none }

/-- A minimal schedule page exercising all five extraction patterns. -/
def exHtml : String :=
  "fontsize-3\">7:30</div> itemprop=\"name \">T</h4> itemprop=\"description\">D</p> " ++
  "مدت:10 دقیقه img class=\"lazy\" alt=\"\" src=\"u\""

def exProgRQB : Programme :=
  { start := ("20260219103000 +0330"), stop := none,
    channel := ("Radio Quran"), title := ("B"), desc := none, icon := none }

/-! ## Claim theorems -/

/-- C4 (failing input): the record `{title: "X", time: "25:00"}` — a shape
the HTML time regex `\d{1,2}:\d{2}` accepts — makes `radio_quran_to_xmltv`
raise `ValueError: hour must be in 0..23` at `date.replace`, instead of
silently dropping the record as the specification's drop/skip error model
describes. -/
theorem radioQuranToXmltv_raises_on_hour_25 :
    radioQuranToXmltv ("Radio Quran") { year := 2026, month := 2, day := 19, offMin := 210 }
      [{ time := ("25:00"), title := ("X"), description := (""), duration := 0, image := ("") }] =
      .error () := rfl

/-- C6 (counterexample): a box whose hour part is 100 survives the
normalizer, and its output time `"100:00"` is not a two-digit zero-padded
`HH:MM` string, refuting the claim as universally stated. -/
theorem normalizeBox_three_digit_hour_not_HHMM :
    normalizeBox { title := ("X"), time := ("100:0"), image := ("") } =
      some { time := ("100:00"), title := ("X"), description := (""), duration := 0, image := ("") } ∧
    isHHMM ("100:00") = false := ⟨rfl, rfl⟩

/-- C3 (counterexample): an item with a whitespace-only `descFull` and a
nonempty `descSummary` gets no description at all (`descFull` wins the
truthiness test before trimming), refuting the claim that the
`descSummary` text would be used. -/
theorem sepehrItemStep_whitespace_descFull_drops_summary :
    sepehrItemStep ("QuranTV.ir@SD")
      { start := some 1771446600000, title := some ("T"), duration := none,
        descFull := some (" "), descSummary := some ("hello"), imageUrl := none } =
      .ok (some { start := ("20260219000000 +0330"), stop := none, channel := ("QuranTV.ir@SD"),
                  title := ("T"), desc := none, icon := none }) ∧
    (none : Option String) ≠ some (pyStrip ("hello")) := ⟨rfl, by decide⟩

/-- C8 (counterexample): the timestamp 1656633600000 ms (2022-07-01 00:00
UTC, inside Iran's final daylight-saving interval) is emitted with offset
`+0430`, refuting the claim that every emitted attribute carries the
fixed offset `+0330`. -/
theorem msToXmltv_dst_timestamp_not_plus0330 :
    sepehrItemStep ("QuranTV.ir@SD")
      { start := some 1656633600000, title := some ("X"), duration := none,
        descFull := none, descSummary := none, imageUrl := none } =
      .ok (some { start := ("20220701043000 +0430"), stop := none, channel := ("QuranTV.ir@SD"),
                  title := ("X"), desc := none, icon := none }) ∧
    strEndsWith ("20220701043000 +0430") (" +0330") = false := ⟨rfl, rfl⟩

/-- C10 (counterexample): an item with a truthy start of 3·10^17 ms
(civil year far beyond 9999), nonempty title and zero duration makes
`sepehr_programmes_to_xmltv` raise inside `ms_to_xmltv` instead of
emitting a stop-less entry, refuting the claim's "no error occurs". -/
theorem sepehrItemStep_out_of_range_start_raises :
    sepehrItemStep ("QuranTV.ir@SD")
      { start := some 300000000000000000, title := some ("X"), duration := some 0,
        descFull := none, descSummary := none, imageUrl := none } = .error () := rfl

/-- C9 (counterexample): in a run where Sepehr contributes one programme
and the radio sources return nothing, the output root's children are
Sepehr channel, Sepehr programme, Radio Quran channel — a channel element
after a programme element, refuting the claimed channels-first layout. -/
theorem mainChildren_channel_after_programme :
    mainChildren true
      [{ start := some 1771446600000, title := some ("A"), duration := some 30,
         descFull := none, descSummary := none, imageUrl := none }]
      (some []) { year := 2026, month := 2, day := 19, offMin := 210 } =
      some [sepehrChannelNode,
        .programme { start := ("20260219000000 +0330"), stop := some ("20260219003000 +0330"),
                     channel := ("QuranTV.ir@SD"), title := ("A"), desc := none, icon := none },
        radioChannelNode] ∧
    channelsBeforeProgrammes [sepehrChannelNode,
        .programme { start := ("20260219000000 +0330"), stop := some ("20260219003000 +0330"),
                     channel := ("QuranTV.ir@SD"), title := ("A"), desc := none, icon := none },
        radioChannelNode] = false := ⟨rfl, rfl⟩

/-! ## Helper lemmas -/

theorem getElem?_lt_aux {α : Type} (l : List α) (i : Nat) (a : α) (h : l[i]? = some a) : i < l.length := by
  by_contra hni
  rw [List.getElem?_eq_none (by omega)] at h
  cases h

theorem rangeMap_getElem? {α : Type} (f : Nat → α) (n i : Nat) (hi : i < n) :
    ((List.range n).map f)[i]? = some (f i) := by
  rw [List.getElem?_map, List.getElem?_range hi]
  rfl

theorem digitChar_ascii : ∀ d, d < 10 → asciiDigit (Nat.digitChar d) = true := by decide

theorem natDigitsAux_all_digits : ∀ fuel n, (natDigitsAux fuel n).all asciiDigit = true := by
  intro fuel
  induction fuel with
  | zero => intro n; rfl
  | succ f ih =>
    intro n
    simp only [natDigitsAux]
    split
    · rename_i h
      simp [digitChar_ascii n h]
    · simp [List.all_append, ih, digitChar_ascii (n % 10) (Nat.mod_lt n (by norm_num))]

theorem natDigitsAux_len (fuel : Nat) : ∀ n w, n < 10 ^ w → 0 < w → (natDigitsAux fuel n).length ≤ w := by
  induction fuel with
  | zero => intro n w _ _; simp [natDigitsAux]
  | succ f ih =>
    intro n w h hw
    simp only [natDigitsAux]
    split
    · simpa using hw
    · rename_i hn
      have hw2 : 2 ≤ w := by
        by_contra hc
        have hw1 : w = 1 := by omega
        subst hw1
        simp at h
        omega
      have hdiv : n / 10 < 10 ^ (w - 1) := by
        rw [Nat.div_lt_iff_lt_mul (by norm_num)]
        calc n < 10 ^ w := h
        _ = 10 ^ (w - 1) * 10 := by
          rw [← Nat.pow_succ]
          congr 1
          omega
      have := ih (n / 10) (w - 1) hdiv (by omega)
      simp only [List.length_append, List.length_cons, List.length_nil]
      omega

theorem natStr_len (n w : Nat) (h : n < 10 ^ w) (hw : 0 < w) : (natStr n).length ≤ w :=
  natDigitsAux_len (n + 1) n w h hw

theorem padZeros_len (w n : Nat) (h : n < 10 ^ w) (hw : 0 < w) : (padZeros w n).length = w := by
  have hle := natStr_len n w h hw
  have h2 : (padZeros w n).length = (w - (natStr n).length) + (natStr n).length := by
    simp [padZeros, String.length_append]
  omega

theorem padZeros_digits (w n : Nat) : ((padZeros w n).data.all asciiDigit) = true := by
  have h1 : (padZeros w n).data = List.replicate (w - (natStr n).length) '0' ++ (natStr n).data := rfl
  rw [h1, List.all_append, Bool.and_eq_true]
  refine ⟨?_, natDigitsAux_all_digits (n + 1) n⟩
  rw [List.all_eq_true]
  intro c hc
  rw [List.eq_of_mem_replicate hc]
  decide

theorem pad2_shape : ∀ n, n < 100 → ((padZeros 2 n).data.all asciiDigit = true ∧ (padZeros 2 n).data.length = 2) := by decide

theorem isHHMM_pad (h m : Int) (h0 : 0 ≤ h) (h1 : h < 100) (m0 : 0 ≤ m) (m1 : m < 100) :
    isHHMM (py02d h ++ (String.mk [':']) ++ py02d m) = true := by
  have e1 : py02d h = padZeros 2 h.toNat := by simp [py02d, h0]
  have e2 : py02d m = padZeros 2 m.toNat := by simp [py02d, m0]
  have hh := pad2_shape h.toNat (by omega)
  have hm := pad2_shape m.toNat (by omega)
  obtain ⟨a, b, hab⟩ := List.length_eq_two.mp hh.2
  obtain ⟨c, d, hcd⟩ := List.length_eq_two.mp hm.2
  have hdigits1 := hh.1
  have hdigits2 := hm.1
  rw [hab] at hdigits1
  rw [hcd] at hdigits2
  simp only [List.all_cons, List.all_nil, Bool.and_true, Bool.and_eq_true] at hdigits1 hdigits2
  have hdata : (py02d h ++ (String.mk [':']) ++ py02d m).data
      = (padZeros 2 h.toNat).data ++ [':'] ++ (padZeros 2 m.toNat).data := by
    rw [e1, e2]
    rfl
  rw [hab, hcd] at hdata
  simp only [isHHMM, hdata]
  simp [hdigits1.1, hdigits1.2, hdigits2.1, hdigits2.2]

theorem firstTruthy_of_full (f : String) (b : Option String) (hf : f ≠ String.mk []) :
    firstTruthy (some f) b = f := by
  simp [firstTruthy, hf]

theorem civilFromDays_bounds (z : Int) :
    1 ≤ (civilFromDays z).2.1 ∧ (civilFromDays z).2.1 ≤ 12 ∧
    1 ≤ (civilFromDays z).2.2 ∧ (civilFromDays z).2.2 ≤ 31 := by
  have h0 : (0 : Int) ≤ (z + 719468) % 146097 := by omega
  have h1 : (z + 719468) % 146097 < 146097 := by omega
  have hdoe : z + 719468 - (z + 719468) / 146097 * 146097 = (z + 719468) % 146097 := by
    omega
  simp only [civilFromDays, hdoe]
  set doe := ((z + 719468) % 146097).toNat with hdoeN
  have hlt : doe < 146097 := by omega
  split_ifs <;> omega

theorem tehranOffset_fixed (t : Int) (h : 1663788600 ≤ t) : tehranOffsetSec t = 12600 := by
  simp only [tehranOffsetSec, tehranTransitions, offsetLookup]
  rw [if_pos h]

theorem msToXmltv_shape (ms : Int) (s : String) (hms : msToXmltv ms = some s)
    (hoff : tehranOffsetSec (ms / 1000) = 12600) :
    ∃ pre : String, s = pre ++ (" +0330") ∧ pre.length = 14 ∧ pre.data.all asciiDigit = true := by
  simp only [msToXmltv, hoff] at hms
  split_ifs at hms with hy1 hy2
  simp only [Option.some.injEq] at hms
  subst hms
  set lsec : Int := ms / 1000 + 12600 with hls
  set c := civilFromDays (lsec / 86400) with hc
  set rem : Nat := (lsec % 86400).toNat with hrem
  have hyb : 1 ≤ c.1 ∧ c.1 ≤ 9999 := by
    push_neg at hy2
    exact ⟨hy2.1, hy2.2⟩
  have hmb := civilFromDays_bounds (lsec / 86400)
  rw [← hc] at hmb
  have hremb : rem < 86400 := by
    have : lsec % 86400 < 86400 := by omega
    omega
  have hform : fmtOffsetSec 12600 = ("+0330") := rfl
  refine ⟨padZeros 4 c.1.toNat ++ padZeros 2 c.2.1 ++ padZeros 2 c.2.2 ++
    padZeros 2 (rem / 3600) ++ padZeros 2 (rem % 3600 / 60) ++ padZeros 2 (rem % 60), ?_, ?_, ?_⟩
  · rw [hform]
    rw [String.append_assoc]
    rfl
  · have l1 := padZeros_len 4 c.1.toNat (by omega) (by norm_num)
    have l2 := padZeros_len 2 c.2.1 (by omega) (by norm_num)
    have l3 := padZeros_len 2 c.2.2 (by omega) (by norm_num)
    have l4 := padZeros_len 2 (rem / 3600) (by omega) (by norm_num)
    have l5 := padZeros_len 2 (rem % 3600 / 60) (by omega) (by norm_num)
    have l6 := padZeros_len 2 (rem % 60) (by omega) (by norm_num)
    simp [String.length_append, l1, l2, l3, l4, l5, l6]
  · have hdata : (padZeros 4 c.1.toNat ++ padZeros 2 c.2.1 ++ padZeros 2 c.2.2 ++
        padZeros 2 (rem / 3600) ++ padZeros 2 (rem % 3600 / 60) ++ padZeros 2 (rem % 60)).data =
        (padZeros 4 c.1.toNat).data ++ (padZeros 2 c.2.1).data ++ (padZeros 2 c.2.2).data ++
        (padZeros 2 (rem / 3600)).data ++ (padZeros 2 (rem % 3600 / 60)).data ++
        (padZeros 2 (rem % 60)).data := rfl
    rw [hdata]
    simp only [List.all_append, Bool.and_eq_true]
    exact ⟨⟨⟨⟨⟨padZeros_digits 4 c.1.toNat, padZeros_digits 2 c.2.1⟩, padZeros_digits 2 c.2.2⟩,
      padZeros_digits 2 (rem / 3600)⟩, padZeros_digits 2 (rem % 3600 / 60)⟩,
      padZeros_digits 2 (rem % 60)⟩

theorem emitOne_ok_start (tvg : String) (a : RQAnchor) (e : RQEntry) (n? : Option RQEntry) (p : Programme)
    (h : emitOne tvg a e n? = .ok p) :
    p.start = fmtStart a e.h e.m ∧ p.channel = tvg ∧ p.title = e.title := by
  simp only [emitOne] at h
  repeat' split at h
  all_goals simp only [Except.ok.injEq, reduceCtorEq] at h
  all_goals cases h
  all_goals exact ⟨rfl, rfl, rfl⟩

theorem emitOne_stop_zero (tvg : String) (a : RQAnchor) (e : RQEntry) (n? : Option RQEntry) (p : Programme)
    (h : emitOne tvg a e n? = .ok p) (hd : e.duration ≤ 0) :
    p.stop = inferredStop a e n? := by
  simp only [emitOne, if_neg (by omega : ¬ 0 < e.duration)] at h
  simp only [Except.ok.injEq] at h
  cases h
  cases n? <;> simp [inferredStop]

theorem emitOne_stop_pos (tvg : String) (a : RQAnchor) (e : RQEntry) (n? : Option RQEntry) (p : Programme)
    (h : emitOne tvg a e n? = .ok p) (hd : 0 < e.duration) :
    ∃ s, addMinutesFmt a e.h e.m e.duration = .ok s ∧ p.stop = some s := by
  cases haf : addMinutesFmt a e.h e.m e.duration with
  | error u =>
    simp only [emitOne, if_pos hd, haf] at h
    simp at h
  | ok s =>
    simp only [emitOne, if_pos hd, haf, Except.ok.injEq] at h
    cases h
    exact ⟨s, rfl, rfl⟩

theorem emitLoop_spec (tvg : String) (a : RQAnchor) :
    ∀ es ps, emitLoop tvg a es = .ok ps →
      ps.length = es.length ∧
      ∀ i, i < es.length →
        ∃ e pi, es[i]? = some e ∧ emitOne tvg a e es[i+1]? = .ok pi ∧ ps[i]? = some pi := by
  intro es
  induction es with
  | nil =>
    intro ps h
    simp only [emitLoop, Except.ok.injEq] at h
    cases h
    refine ⟨rfl, fun i hi => absurd hi (by simp)⟩
  | cons e rest ih =>
    intro ps h
    simp only [emitLoop] at h
    split at h
    · simp at h
    · rename_i p hp
      split at h
      · simp at h
      · rename_i ps2 hps2
        simp only [Except.ok.injEq] at h
        cases h
        obtain ⟨hlen, hspec⟩ := ih ps2 hps2
        refine ⟨by simp [hlen], fun i hi => ?_⟩
        cases i with
        | zero =>
          refine ⟨e, p, by simp, ?_, by simp⟩
          have hhd : (e :: rest)[1]? = rest.head? := by
            cases rest <;> simp
          rw [hhd]
          exact hp
        | succ j =>
          have hj : j < rest.length := by simpa using hi
          obtain ⟨e2, pi, he2, hone, hpi⟩ := hspec j hj
          exact ⟨e2, pi, by simpa using he2, by simpa using hone, by simpa using hpi⟩

theorem mapProgramme_no_channel (rp : List Programme) :
    (rp.map TVNode.programme).all (fun n => ! n.isChannel) = true := by
  induction rp with
  | nil => rfl
  | cons p t ih => simp [TVNode.isChannel, ih]

theorem channelsBefore_of_shape (chs progs : List TVNode)
    (hc : chs.all TVNode.isChannel = true) (hp : progs.all (fun n => ! n.isChannel) = true) :
    channelsBeforeProgrammes (chs ++ progs) = true := by
  induction chs with
  | nil =>
    cases progs with
    | nil => rfl
    | cons q t =>
      simp only [List.all_cons, Bool.and_eq_true, Bool.not_eq_true'] at hp
      simp only [channelsBeforeProgrammes, List.nil_append, List.dropWhile_cons, hp.1,
        Bool.false_eq_true, if_false, List.all_cons, Bool.and_eq_true, Bool.not_eq_true']
      exact ⟨trivial, hp.2⟩
  | cons c t ih =>
    simp only [List.all_cons, Bool.and_eq_true] at hc
    have := ih hc.2
    simp only [channelsBeforeProgrammes, List.cons_append, List.dropWhile_cons, hc.1, if_true] at this ⊢
    exact this

/-- C1: in `radio_quran_to_xmltv`, for a surviving record with
`duration == 0`, the emitted entry's stop attribute is the next filtered
record's start when that start is strictly later, and is absent when the
next start is not strictly later or when the record is last — and when a
stop is emitted it equals the next emitted entry's own start attribute. -/
theorem radio_stop_inference_zero_duration :
    ∀ (tvg : String) (a : RQAnchor) (progs : List RQRec) (es : List RQEntry)
      (ps : List Programme) (i : Nat) (e : RQEntry),
      buildEntries progs = .ok es →
      emitLoop tvg a es = .ok ps →
      es[i]? = some e →
      e.duration = 0 →
      ps.length = es.length ∧
      ∃ pi, ps[i]? = some pi ∧
        pi.stop = inferredStop a e es[i+1]? ∧
        (∀ nx pn, es[i+1]? = some nx → ps[i+1]? = some pn →
          entryLater e nx = true → pi.stop = some pn.start) := by
  intro tvg a progs es ps i e hb hemit he hdur
  have hi : i < es.length := getElem?_lt_aux es i e he
  obtain ⟨hlen, hspec⟩ := emitLoop_spec tvg a es ps hemit
  obtain ⟨e2, pi, he2, hone, hpi⟩ := hspec i hi
  rw [he] at he2
  cases he2
  refine ⟨hlen, pi, hpi, emitOne_stop_zero tvg a e _ pi hone (by omega), ?_⟩
  intro nx pn hnx hpn hlater
  have hi1 : i + 1 < es.length := getElem?_lt_aux es (i+1) nx hnx
  obtain ⟨e3, p2, he3, hone2, hp2⟩ := hspec (i+1) hi1
  rw [hnx] at he3
  cases he3
  rw [hpn] at hp2
  cases hp2
  have hstart := (emitOne_ok_start tvg a nx _ pn hone2).1
  rw [emitOne_stop_zero tvg a e _ pi hone (by omega), hnx, hstart]
  simp [inferredStop, hlater]

/-- C1 (witness): on the two-record schedule A at 10:00 and B at 10:30,
both with zero duration, A's emitted stop equals B's emitted start. -/
theorem radio_stop_inference_zero_duration_witness :
    exProgA.stop = some exProgB.start ∧
    ([exProgA, exProgB] : List Programme).length = ([exEntryA, exEntryB] : List RQEntry).length := by
  have h := radio_stop_inference_zero_duration ("RQ") exAnchor [exRecA, exRecB]
    [exEntryA, exEntryB] [exProgA, exProgB] 0 exEntryA rfl rfl rfl rfl
  obtain ⟨hlen, pi, hpi, _, himp⟩ := h
  rw [show ([exProgA, exProgB] : List Programme)[0]? = some exProgA from rfl] at hpi
  injection hpi with hpi
  subst hpi
  exact ⟨himp exEntryB exProgB rfl rfl rfl, hlen⟩

/-- C2: an entry whose record has `duration > 0` and a valid start gets a
stop equal to its start plus exactly the duration — `start + duration *
60000` ms through `ms_to_xmltv` on the API path, calendar-aware minute
addition on the radio path — and no stop is derived from a missing, zero
or negative duration. -/
theorem stop_equals_start_plus_duration :
    (∀ (tvg : String) (item : SepehrItem) (s d : Int) (p : Programme),
        item.start = some s → item.duration = some d → 0 < d →
        sepehrItemStep tvg item = .ok (some p) →
        ∃ stopStr, msToXmltv (s + d * 60 * 1000) = some stopStr ∧ p.stop = some stopStr) ∧
    (∀ (tvg : String) (item : SepehrItem) (s : Int) (p : Programme),
        item.start = some s →
        (item.duration = none ∨ ∃ d, item.duration = some d ∧ d ≤ 0) →
        sepehrItemStep tvg item = .ok (some p) → p.stop = none) ∧
    (∀ (tvg : String) (a : RQAnchor) (es : List RQEntry) (ps : List Programme) (i : Nat) (e : RQEntry),
        emitLoop tvg a es = .ok ps → es[i]? = some e → 0 < e.duration →
        ∃ stopStr, addMinutesFmt a e.h e.m e.duration = .ok stopStr ∧
          ∃ pi, ps[i]? = some pi ∧ pi.stop = some stopStr) ∧
    (∀ (tvg : String) (a : RQAnchor) (es : List RQEntry) (ps : List Programme) (i : Nat) (e : RQEntry),
        emitLoop tvg a es = .ok ps → es[i]? = some e → e.duration ≤ 0 →
        ∃ pi, ps[i]? = some pi ∧ pi.stop = inferredStop a e es[i+1]?) := by
  refine ⟨?_, ?_, ?_, ?_⟩
  · intro tvg item s d p hs hd hdpos hstep
    cases hms1 : msToXmltv s with
    | none =>
      simp only [sepehrItemStep, hs, hms1] at hstep
      repeat' split at hstep
      all_goals simp_all
    | some st1 =>
      cases hms2 : msToXmltv (s + d * 60 * 1000) with
      | none =>
        simp only [sepehrItemStep, hs, hd, if_pos hdpos, hms1, hms2] at hstep
        repeat' split at hstep
        all_goals simp_all
      | some st2 =>
        simp only [sepehrItemStep, hs, hd, if_pos hdpos, hms1, hms2] at hstep
        repeat' split at hstep
        all_goals simp only [Except.ok.injEq, Option.some.injEq, reduceCtorEq] at hstep
        all_goals try cases hstep
        all_goals exact ⟨st2, rfl, rfl⟩
  · intro tvg item s p hs hd hstep
    cases hms1 : msToXmltv s with
    | none =>
      simp only [sepehrItemStep, hs, hms1] at hstep
      repeat' split at hstep
      all_goals simp_all
    | some st1 =>
      rcases hd with hd | ⟨d, hd, hdle⟩
      · simp only [sepehrItemStep, hs, hd, hms1] at hstep
        repeat' split at hstep
        all_goals simp only [Except.ok.injEq, Option.some.injEq, reduceCtorEq] at hstep
        all_goals try cases hstep
        all_goals rfl
      · simp only [sepehrItemStep, hs, hd, if_neg (by omega : ¬ 0 < d), hms1] at hstep
        repeat' split at hstep
        all_goals simp only [Except.ok.injEq, Option.some.injEq, reduceCtorEq] at hstep
        all_goals try cases hstep
        all_goals rfl
  · intro tvg a es ps i e hemit he hdpos
    have hi : i < es.length := getElem?_lt_aux es i e he
    obtain ⟨hlen, hspec⟩ := emitLoop_spec tvg a es ps hemit
    obtain ⟨e2, pi, he2, hone, hpi⟩ := hspec i hi
    rw [he] at he2
    cases he2
    obtain ⟨st, hst, hstop⟩ := emitOne_stop_pos tvg a e _ pi hone hdpos
    exact ⟨st, hst, pi, hpi, hstop⟩
  · intro tvg a es ps i e hemit he hdle
    have hi : i < es.length := getElem?_lt_aux es i e he
    obtain ⟨hlen, hspec⟩ := emitLoop_spec tvg a es ps hemit
    obtain ⟨e2, pi, he2, hone, hpi⟩ := hspec i hi
    rw [he] at he2
    cases he2
    exact ⟨pi, hpi, emitOne_stop_zero tvg a e _ pi hone hdle⟩

/-- C2 (witness): the item starting 2026-02-19 00:00 +0330 with duration
30 minutes is emitted with stop `ms_to_xmltv(start + 30·60000)` =
`20260219003000 +0330`. -/
theorem stop_equals_start_plus_duration_witness :
    msToXmltv (1771446600000 + 30 * 60 * 1000) = some ("20260219003000 +0330") ∧
    exProg30.stop = some ("20260219003000 +0330") := by
  obtain ⟨st, hst, hstop⟩ := stop_equals_start_plus_duration.1 ("QuranTV.ir@SD")
    exItem30 1771446600000 30 exProg30 rfl rfl (by norm_num) rfl
  rw [show msToXmltv (1771446600000 + 30 * 60 * 1000) = some ("20260219003000 +0330") from rfl] at hst
  injection hst with hst
  subst hst
  exact ⟨rfl, hstop⟩

/-- C3 (amended): the description is the trim of `descFull` whenever
`descFull` is nonempty before trimming — even when it is whitespace-only
and `descSummary` is nonempty — else the trim of a nonempty
`descSummary`, else empty; a desc child exists iff the result is
nonempty. -/
theorem sepehr_desc_selection_amended :
    ∀ (tvg : String) (item : SepehrItem) (p : Programme),
      sepehrItemStep tvg item = .ok (some p) →
      p.desc = (if pyStrip (firstTruthy item.descFull item.descSummary) = (String.mk []) then none
                else some (pyStrip (firstTruthy item.descFull item.descSummary))) ∧
      (∀ f, item.descFull = some f → f ≠ (String.mk []) →
        p.desc = (if pyStrip f = (String.mk []) then none else some (pyStrip f))) ∧
      ((item.descFull = none ∨ item.descFull = some (String.mk [])) →
        (∀ g, item.descSummary = some g → g ≠ (String.mk []) →
          p.desc = (if pyStrip g = (String.mk []) then none else some (pyStrip g))) ∧
        ((item.descSummary = none ∨ item.descSummary = some (String.mk [])) → p.desc = none)) := by
  intro tvg item p hstep
  have h1 : p.desc = (if pyStrip (firstTruthy item.descFull item.descSummary) = (String.mk []) then none
      else some (pyStrip (firstTruthy item.descFull item.descSummary))) := by
    simp only [sepehrItemStep] at hstep
    repeat' split at hstep
    all_goals simp only [Except.ok.injEq, Option.some.injEq, reduceCtorEq] at hstep
    all_goals try cases hstep
    all_goals simp_all
  refine ⟨h1, ?_, ?_⟩
  · intro f hf hfne
    rw [h1, hf, firstTruthy_of_full f item.descSummary hfne]
  · intro hfull
    constructor
    · intro g hg hgne
      have he : firstTruthy item.descFull item.descSummary = g := by
        rcases hfull with hf | hf <;> simp [firstTruthy, hf, hg, hgne]
      rw [h1, he]
    · intro hsum
      have he : firstTruthy item.descFull item.descSummary = String.mk [] := by
        rcases hfull with hf | hf <;> rcases hsum with hs | hs <;> simp [firstTruthy, hf, hs]
      rw [h1, he]
      simp [pyStrip]

/-- C3 (witness): an item with a nonempty `descFull` gets that text,
trimmed, as its desc child even though `descSummary` is also nonempty. -/
theorem sepehr_desc_selection_amended_witness :
    exProgDesc.desc = (if pyStrip ("full text") = (String.mk []) then none
      else some (pyStrip ("full text"))) :=
  (sepehr_desc_selection_amended ("ch") exItemDesc exProgDesc rfl).2.1 ("full text") rfl (by decide)

/-- C5: `parse_radio_quran_html` returns exactly `n` records, `n` the
minimum of the five pattern-scan result lengths, record `i` built from
the `i`-th match of each sequence (trimmed time and title, cleaned
description, integer duration, image verbatim); `n = 0` gives the empty
list rather than an error. -/
theorem html_parser_zip_min :
    ∀ html : String,
      (parseRadioQuranHtml html).length =
        min (min (min (min (findTimes html).length (findTitles html).length) (findDescs html).length)
          (findDurations html).length) (findImages html).length ∧
      (∀ i, i < (parseRadioQuranHtml html).length →
        (parseRadioQuranHtml html)[i]? = some
          { time := pyStrip ((findTimes html).getD i (String.mk []))
            title := pyStrip ((findTitles html).getD i (String.mk []))
            description := cleanDesc ((findDescs html).getD i (String.mk []))
            duration := pyIntDigits ((findDurations html).getD i (String.mk []))
            image := (findImages html).getD i (String.mk []) }) ∧
      (min (min (min (min (findTimes html).length (findTitles html).length) (findDescs html).length)
          (findDurations html).length) (findImages html).length = 0 →
        parseRadioQuranHtml html = []) := by
  intro html
  have hrepr : parseRadioQuranHtml html =
      (List.range (min (min (min (min (findTimes html).length (findTitles html).length)
        (findDescs html).length) (findDurations html).length) (findImages html).length)).map
      (fun i =>
        { time := pyStrip ((findTimes html).getD i (String.mk []))
          title := pyStrip ((findTitles html).getD i (String.mk []))
          description := cleanDesc ((findDescs html).getD i (String.mk []))
          duration := pyIntDigits ((findDurations html).getD i (String.mk []))
          image := (findImages html).getD i (String.mk []) }) := rfl
  refine ⟨?_, ?_, ?_⟩
  · rw [hrepr, List.length_map, List.length_range]
  · intro i hi
    rw [hrepr, List.length_map, List.length_range] at hi
    rw [hrepr, rangeMap_getElem? _ _ i hi]
  · intro h0
    rw [hrepr, h0]
    rfl

set_option maxRecDepth 4000 in
/-- C5 (witness): on a one-block page the parser yields exactly the
record zipped from the first match of each of the five scans. -/
theorem html_parser_zip_min_witness :
    (parseRadioQuranHtml exHtml)[0]? = some
      { time := pyStrip ((findTimes exHtml).getD 0 (String.mk []))
        title := pyStrip ((findTitles exHtml).getD 0 (String.mk []))
        description := cleanDesc ((findDescs exHtml).getD 0 (String.mk []))
        duration := pyIntDigits ((findDurations exHtml).getD 0 (String.mk []))
        image := (findImages exHtml).getD 0 (String.mk []) } :=
  (html_parser_zip_min exHtml).2.1 0 (by decide)

/-- C6 (amended): a surviving box's time is hour and minute rendered by
`f"{h:02d}:{m:02d}"` — zero-padded to a minimum width of two, so values
0..99 give exactly the two-digit `HH:MM` form (a value of 100 or more, or
a negative one, is longer) — and boxes whose time lacks `:` or whose
parts `int()` rejects are dropped. -/
theorem json_time_padding_amended :
    (∀ box r h m p0 p1 rest,
        normalizeBox box = some r →
        splitOnChar ':' (pyStrip box.time).data = p0 :: p1 :: rest →
        pyIntOfString (String.mk p0) = some h →
        pyIntOfString (String.mk p1) = some m →
        r.time = py02d h ++ (String.mk [':']) ++ py02d m ∧
        (0 ≤ h → h < 100 → 0 ≤ m → m < 100 → isHHMM r.time = true)) ∧
    (∀ box, box.time.data.any (fun c => c = ':') = false → normalizeBox box = none) ∧
    (∀ box p0 p1 rest,
        splitOnChar ':' (pyStrip box.time).data = p0 :: p1 :: rest →
        (pyIntOfString (String.mk p0) = none ∨ pyIntOfString (String.mk p1) = none) →
        normalizeBox box = none) := by
  refine ⟨?_, ?_, ?_⟩
  · intro box r h m p0 p1 rest hn hsplit hh hm
    simp only [normalizeBox, hsplit, hh, hm] at hn
    repeat' split at hn
    all_goals simp only [Option.some.injEq, reduceCtorEq] at hn
    all_goals cases hn
    all_goals refine ⟨rfl, fun h0 h1 m0 m1 => ?_⟩
    all_goals exact isHHMM_pad h m h0 h1 m0 m1
  · intro box hno
    simp only [normalizeBox, hno]
    split
    · rfl
    · simp
  · intro box p0 p1 rest hsplit hor
    simp only [normalizeBox, hsplit]
    split
    · rfl
    · split
      · rfl
      · rcases hor with hor | hor
        · rcases hq : pyIntOfString (String.mk p1) with _ | v <;> simp [hor, hq]
        · rcases hq : pyIntOfString (String.mk p0) with _ | v <;> simp [hor, hq]

/-- C6 (witness): the box time `"5:5"` is normalized to the two-digit
zero-padded `"05:05"`. -/
theorem json_time_padding_amended_witness :
    ({ time := ("05:05"), title := ("X"), description := (""), duration := 0,
       image := ("") } : RQRec).time = py02d 5 ++ (String.mk [':']) ++ py02d 5 ∧
    isHHMM (("05:05" : String)) = true := by
  have h := json_time_padding_amended.1 { title := ("X"), time := ("5:5"), image := ("") }
    { time := ("05:05"), title := ("X"), description := (""), duration := 0, image := ("") }
    5 5 (['5']) (['5']) ([]) rfl rfl rfl rfl
  exact ⟨h.1, h.2 (by norm_num) (by norm_num) (by norm_num) (by norm_num)⟩

/-- C7: a surviving box's image is left empty when empty, kept verbatim
when it already starts with the scheme prefix `http`, and otherwise
prefixed with the fixed origin `https://radioquran.ir`. -/
theorem json_image_origin_prefixing :
    ∀ box r, normalizeBox box = some r →
      (box.image = (String.mk []) → r.image = (String.mk [])) ∧
      ((String.mk ['h','t','t','p']).data.isPrefixOf box.image.data = true → r.image = box.image) ∧
      (box.image ≠ (String.mk []) → (String.mk ['h','t','t','p']).data.isPrefixOf box.image.data = false →
        r.image = rqOrigin ++ box.image) := by
  intro box r h
  simp only [normalizeBox] at h
  repeat' split at h
  all_goals simp only [Option.some.injEq, reduceCtorEq] at h
  all_goals cases h
  all_goals refine ⟨fun he => ?_, fun hp => ?_, fun hne hp => ?_⟩
  all_goals simp_all

/-- C7 (witness): the relative path `/p.png` of a surviving box gains the
fixed origin. -/
theorem json_image_origin_prefixing_witness :
    ({ time := ("09:05"), title := ("Y"), description := (""), duration := 0,
       image := ("https://radioquran.ir/p.png") } : RQRec).image = rqOrigin ++ ("/p.png") :=
  (json_image_origin_prefixing { title := ("Y"), time := ("9:5"), image := ("/p.png") }
      { time := ("09:05"), title := ("Y"), description := (""), duration := 0,
        image := ("https://radioquran.ir/p.png") } rfl).2.2 (by decide) (by decide)

/-- C8 (amended): for every timestamp at or after Iran's final
daylight-saving transition (2022-09-21 19:30 UTC, 1663788600000 ms), an
emitted attribute is fourteen decimal digits (`YYYYMMDDHHMMSS`), a space
and the fixed offset `+0330`; the radio-path `strftime` on a fixed
+03:30 anchor has the same shape. Timestamps inside historical
daylight-saving intervals instead carry that interval's offset, such as
`+0430`. -/
theorem timestamp_format_amended :
    (∀ (ms : Int) (s : String), 1663788600000 ≤ ms → msToXmltv ms = some s →
      ∃ pre, s = pre ++ (" +0330") ∧ pre.length = 14 ∧ pre.data.all asciiDigit = true) ∧
    (∀ (a : RQAnchor) (h m : Nat), a.offMin = 210 → a.year ≤ 9999 → a.month ≤ 99 → a.day ≤ 99 →
      h ≤ 99 → m ≤ 99 →
      ∃ pre, fmtStart a h m = pre ++ (" +0330") ∧ pre.length = 14 ∧ pre.data.all asciiDigit = true) := by
  constructor
  · intro ms s hcut hms
    have hdiv : 1663788600 ≤ ms / 1000 := by omega
    exact msToXmltv_shape ms s hms (tehranOffset_fixed (ms / 1000) hdiv)
  · intro a h m hoffm hy hmo hd hh hm
    have hform : fmtOffsetSec (a.offMin * 60) = ("+0330") := by
      rw [hoffm]
      rfl
    refine ⟨padZeros 4 a.year ++ padZeros 2 a.month ++ padZeros 2 a.day ++
      padZeros 2 h ++ padZeros 2 m ++ padZeros 2 0, ?_, ?_, ?_⟩
    · simp only [fmtStart, hform]
      rw [String.append_assoc]
      rfl
    · have l1 := padZeros_len 4 a.year (by omega) (by norm_num)
      have l2 := padZeros_len 2 a.month (by omega) (by norm_num)
      have l3 := padZeros_len 2 a.day (by omega) (by norm_num)
      have l4 := padZeros_len 2 h (by omega) (by norm_num)
      have l5 := padZeros_len 2 m (by omega) (by norm_num)
      have l6 := padZeros_len 2 0 (by norm_num) (by norm_num)
      simp [String.length_append, l1, l2, l3, l4, l5, l6]
    · have hdata : (padZeros 4 a.year ++ padZeros 2 a.month ++ padZeros 2 a.day ++
          padZeros 2 h ++ padZeros 2 m ++ padZeros 2 0).data =
          (padZeros 4 a.year).data ++ (padZeros 2 a.month).data ++ (padZeros 2 a.day).data ++
          (padZeros 2 h).data ++ (padZeros 2 m).data ++ (padZeros 2 0).data := rfl
      rw [hdata]
      simp only [List.all_append, Bool.and_eq_true]
      exact ⟨⟨⟨⟨⟨padZeros_digits 4 a.year, padZeros_digits 2 a.month⟩, padZeros_digits 2 a.day⟩,
        padZeros_digits 2 h⟩, padZeros_digits 2 m⟩, padZeros_digits 2 0⟩

/-- C8 (witness): the post-transition timestamp of 2026-02-19 00:00
+0330 formats as fourteen digits, a space and `+0330`. -/
theorem timestamp_format_amended_witness :
    ∃ pre, ("20260219000000 +0330" : String) = pre ++ (" +0330") ∧ pre.length = 14 ∧
      pre.data.all asciiDigit = true :=
  timestamp_format_amended.1 1771446600000 ("20260219000000 +0330") (by norm_num) rfl

/-- C9 (amended): the root children of every written run are the Sepehr
channel element (when Sepehr passed its token check), then Sepehr
programme elements, then the Radio Quran channel element, then radio
programme elements; so each source's channel precedes its own programmes,
and every channel precedes every programme exactly when Sepehr
contributes no programme elements. -/
theorem root_children_order_amended :
    ∀ (sepehrOk : Bool) (items : List SepehrItem) (rq? : Option (List RQRec)) (a : RQAnchor) (l : List TVNode),
      mainChildren sepehrOk items rq? a = some l →
      ∃ (sp : List Programme) (rp : List Programme),
        l = (if sepehrOk then [sepehrChannelNode] else []) ++ sp.map TVNode.programme ++
          [radioChannelNode] ++ rp.map TVNode.programme ∧
        (sp = [] → channelsBeforeProgrammes l = true) := by
  intro sepehrOk items rq? a l hmain
  have hafter : ∀ sp : List Programme, ∀ rp : List Programme,
      l = (if sepehrOk then [sepehrChannelNode] else []) ++ sp.map TVNode.programme ++
        [radioChannelNode] ++ rp.map TVNode.programme →
      ∃ (sp2 : List Programme) (rp2 : List Programme),
        l = (if sepehrOk then [sepehrChannelNode] else []) ++ sp2.map TVNode.programme ++
          [radioChannelNode] ++ rp2.map TVNode.programme ∧
        (sp2 = [] → channelsBeforeProgrammes l = true) := by
    intro sp rp hl
    refine ⟨sp, rp, hl, fun hsp => ?_⟩
    subst hsp
    rw [hl]
    have hchs : ((if sepehrOk then [sepehrChannelNode] else []) ++ [radioChannelNode]).all TVNode.isChannel = true := by
      cases sepehrOk <;> simp [sepehrChannelNode, radioChannelNode, TVNode.isChannel]
    have hres := channelsBefore_of_shape ((if sepehrOk then [sepehrChannelNode] else []) ++ [radioChannelNode])
      (rp.map TVNode.programme) hchs (mapProgramme_no_channel rp)
    have hassoc : (if sepehrOk then [sepehrChannelNode] else []) ++ List.map TVNode.programme [] ++
        [radioChannelNode] ++ rp.map TVNode.programme =
        ((if sepehrOk then [sepehrChannelNode] else []) ++ [radioChannelNode]) ++ rp.map TVNode.programme := by
      simp
    rw [hassoc]
    exact hres
  rcases hsec : sepehrSection sepehrOk items with ⟨spl, serr⟩
  rcases rq? with _ | (_ | ⟨r0, rrest⟩)
  · simp only [mainChildren, hsec] at hmain
    repeat' split at hmain
    all_goals try exact Option.noConfusion hmain
    all_goals injection hmain with hmain
    all_goals subst hmain
    all_goals exact hafter spl [] (by simp_all)
  · simp only [mainChildren, hsec] at hmain
    repeat' split at hmain
    all_goals try exact Option.noConfusion hmain
    all_goals injection hmain with hmain
    all_goals subst hmain
    all_goals exact hafter spl [] (by simp_all)
  · cases hr : radioQuranToXmltv (String.mk ['R','a','d','i','o',' ','Q','u','r','a','n']) a (r0 :: rrest) with
    | error u =>
      simp only [mainChildren, hsec, hr] at hmain
      exact Option.noConfusion hmain
    | ok rps =>
      simp only [mainChildren, hsec, hr] at hmain
      repeat' split at hmain
      all_goals try exact Option.noConfusion hmain
      all_goals injection hmain with hmain
      all_goals subst hmain
      all_goals exact hafter spl rps (by simp_all)

/-- C9 (witness): a radio-only run has the Radio Quran channel element
followed by its programme element, with channels before programmes. -/
theorem root_children_order_amended_witness :
    ∃ (sp : List Programme) (rp : List Programme),
      ([radioChannelNode, TVNode.programme exProgRQB] : List TVNode) =
        (if false then [sepehrChannelNode] else []) ++ sp.map TVNode.programme ++
        [radioChannelNode] ++ rp.map TVNode.programme ∧
      (sp = [] → channelsBeforeProgrammes [radioChannelNode, TVNode.programme exProgRQB] = true) :=
  root_children_order_amended false [] (some [exRecB]) exAnchor
    [radioChannelNode, TVNode.programme exProgRQB] rfl

/-- C10 (amended): an item with a truthy start that `ms_to_xmltv` can
format, a nonempty trimmed title, and a missing, null, zero or negative
duration is emitted with no stop attribute and no error; a start outside
the formattable range instead raises. -/
theorem sepehr_no_duration_entry_amended :
    ∀ (tvg : String) (item : SepehrItem) (s : Int) (st : String),
      item.start = some s → s ≠ 0 →
      pyStrip (item.title.getD (String.mk [])) ≠ (String.mk []) →
      (item.duration = none ∨ ∃ d, item.duration = some d ∧ d ≤ 0) →
      msToXmltv s = some st →
      ∃ p, sepehrItemStep tvg item = .ok (some p) ∧ p.stop = none ∧ p.start = st := by
  intro tvg item s st hs hs0 htitle hdur hst
  rcases hdur with hd | ⟨d, hd, hdle⟩
  · simp only [sepehrItemStep, hs, if_neg hs0, if_neg htitle, hst, hd]
    exact ⟨_, rfl, rfl, rfl⟩
  · simp only [sepehrItemStep, hs, if_neg hs0, if_neg htitle, hst, hd,
      if_neg (by omega : ¬ 0 < d)]
    exact ⟨_, rfl, rfl, rfl⟩

/-- C10 (witness): the item with duration −5 and a valid 2026 start is
emitted with no stop attribute. -/
theorem sepehr_no_duration_entry_amended_witness :
    ∃ p, sepehrItemStep ("ch") exItemNeg = .ok (some p) ∧ p.stop = none ∧
      p.start = ("20260219000000 +0330") :=
  sepehr_no_duration_entry_amended ("ch") exItemNeg 1771446600000 ("20260219000000 +0330")
    rfl (by norm_num) (by decide) (Or.inr ⟨-5, rfl, by norm_num⟩) rfl
